import Mathlib

/-!
Verification of the fault-tolerance middleware (mqtt-fault-tolerance-study).

Shallow embedding of the three relay variants:
* middleware1.cpp — circuit breaker (`CircuitBreaker`) plus retry queue
  (`messageQueue` drained by `retryFailedMessages`);
* middleware2.cpp — leader/follower cluster node (`MiddlewareNode`);
* middleware3_pipeline.cpp — validation/transformation pipeline with a
  supervisor health sweep.

Timestamps are modelled as `Int` (a steady-clock time point); durations in
seconds.  External transport calls (`forwardToReceiverTopic`, publish) are
modelled as a stateful function returning one of three outcomes: a normal
`true`, a normal `false`, or a thrown exception.
-/

namespace MqttFT

/-! ## CircuitBreaker (middleware1.cpp, lines 11-54) -/

structure CircuitBreaker where
  failureCount : Nat
  successCount : Nat
  isOpen : Bool
  lastFailureTime : Int
deriving DecidableEq, Repr

/-- Fixed configuration `failureThreshold = 3` (middleware1.cpp line 17). -/
def failureThreshold : Nat := 3

/-- Fixed configuration `successThreshold = 2` (middleware1.cpp line 18). -/
def successThreshold : Nat := 2

/-- Fixed configuration `resetTimeout = 10s` (middleware1.cpp line 19). -/
def resetTimeout : Int := 10

/-- Field initializers of `CircuitBreaker` (lines 13-16); the initial
`lastFailureTime` is an arbitrary time point, taken here as 0. -/
def CircuitBreaker.init : CircuitBreaker :=
  { failureCount := 0, successCount := 0, isOpen := false, lastFailureTime := 0 }

/-- Model of `CircuitBreaker::allowRequest` (lines 22-32): returns the bool result and
the updated breaker.  `now` is the sampled steady-clock time. -/
def allowRequest (cb : CircuitBreaker) (now : Int) : Bool × CircuitBreaker :=
  if cb.isOpen then
    if now - cb.lastFailureTime > resetTimeout then
      (true, { cb with isOpen := false })
    else
      (false, cb)
  else
    (true, cb)

/-- Model of `CircuitBreaker::recordFailure` (lines 34-43). -/
def recordFailure (cb : CircuitBreaker) (now : Int) : CircuitBreaker :=
  let cb1 : CircuitBreaker :=
    { cb with failureCount := cb.failureCount + 1, successCount := 0,
              lastFailureTime := now }
  if cb1.failureCount ≥ failureThreshold then { cb1 with isOpen := true } else cb1

/-- Model of `CircuitBreaker::recordSuccess` (lines 45-51). -/
def recordSuccess (cb : CircuitBreaker) : CircuitBreaker :=
  let cb1 : CircuitBreaker := { cb with successCount := cb.successCount + 1 }
  if cb1.successCount ≥ successThreshold then { cb1 with failureCount := 0 } else cb1

/-- A sequence of consecutive `recordFailure` calls at the given times. -/
def recordFailures (cb : CircuitBreaker) (ts : List Int) : CircuitBreaker :=
  ts.foldl recordFailure cb

lemma recordFailure_failureCount (cb : CircuitBreaker) (t : Int) :
    (recordFailure cb t).failureCount = cb.failureCount + 1 := by
  unfold recordFailure
  dsimp only
  split <;> rfl

lemma recordFailure_lastFailureTime (cb : CircuitBreaker) (t : Int) :
    (recordFailure cb t).lastFailureTime = t := by
  unfold recordFailure
  dsimp only
  split <;> rfl

lemma recordFailures_failureCount (cb : CircuitBreaker) (ts : List Int) :
    (recordFailures cb ts).failureCount = cb.failureCount + ts.length := by
  induction ts generalizing cb with
  | nil => simp [recordFailures]
  | cons t ts ih =>
      show (recordFailures (recordFailure cb t) ts).failureCount = _
      rw [ih, recordFailure_failureCount]
      simp [List.length_cons]
      omega

lemma recordFailure_isOpen_of_threshold (cb : CircuitBreaker) (t : Int)
    (h : cb.failureCount + 1 ≥ failureThreshold) :
    (recordFailure cb t).isOpen = true := by
  unfold recordFailure
  dsimp only
  rw [if_pos h]

lemma allowRequest_closed (cb : CircuitBreaker) (now : Int) (h : cb.isOpen = false) :
    allowRequest cb now = (true, cb) := by
  unfold allowRequest
  rw [h]
  simp

/-- Claim C1: After any `N ≥ failureThreshold` consecutive `recordFailure` calls
(the last one at time `t`), the breaker is Open with `lastFailureTime = t`;
every `allowRequest` at a time with `now - t ≤ resetTimeout` returns `false`
and leaves the state unchanged; the very first `allowRequest` at a time with
`now - t > resetTimeout` returns `true` and closes the breaker
unconditionally, and once closed every `allowRequest` returns `true` and
leaves the state unchanged (until some later `recordFailure` sequence). -/
theorem claim_C1 (cb : CircuitBreaker) (ts : List Int) (t : Int)
    (hN : ts.length + 1 ≥ failureThreshold) :
    ((recordFailures cb (ts ++ [t])).isOpen = true) ∧
    ((recordFailures cb (ts ++ [t])).lastFailureTime = t) ∧
    (∀ now : Int, now - t ≤ resetTimeout →
      allowRequest (recordFailures cb (ts ++ [t])) now =
        (false, recordFailures cb (ts ++ [t]))) ∧
    (∀ now : Int, now - t > resetTimeout →
      (allowRequest (recordFailures cb (ts ++ [t])) now).1 = true ∧
      (allowRequest (recordFailures cb (ts ++ [t])) now).2.isOpen = false) ∧
    (∀ cb2 : CircuitBreaker, cb2.isOpen = false →
      ∀ now2 : Int, allowRequest cb2 now2 = (true, cb2)) := by
  have hsplit : recordFailures cb (ts ++ [t]) = recordFailure (recordFailures cb ts) t := by
    unfold recordFailures
    rw [List.foldl_append]
    rfl
  have hcnt : (recordFailures cb ts).failureCount + 1 ≥ failureThreshold := by
    rw [recordFailures_failureCount]
    omega
  have hopen : (recordFailures cb (ts ++ [t])).isOpen = true := by
    rw [hsplit]; exact recordFailure_isOpen_of_threshold _ _ hcnt
  have hlast : (recordFailures cb (ts ++ [t])).lastFailureTime = t := by
    rw [hsplit]; exact recordFailure_lastFailureTime _ _
  refine ⟨hopen, hlast, ?_, ?_, ?_⟩
  · intro now hle
    unfold allowRequest
    rw [hopen, hlast]
    simp only [if_true]
    rw [if_neg (by omega)]
  · intro now hgt
    unfold allowRequest
    rw [hopen, hlast]
    simp only [if_true]
    rw [if_pos (by omega)]
    exact ⟨rfl, rfl⟩
  · intro cb2 h2 now2
    exact allowRequest_closed cb2 now2 h2

/-- Witness for C1 at a concrete run: three failures at times 1, 2, 3; the
gate refuses at time 13 (elapsed exactly the timeout) and reopens at 14. -/
theorem claim_C1_witness :
    ([(1 : Int), 2].length + 1 ≥ failureThreshold) ∧
    (allowRequest (recordFailures CircuitBreaker.init ([1, 2] ++ [3])) 13 =
      (false, recordFailures CircuitBreaker.init ([1, 2] ++ [3]))) ∧
    ((allowRequest (recordFailures CircuitBreaker.init ([1, 2] ++ [3])) 14).1 = true) := by
  refine ⟨by decide, ?_, ?_⟩
  · exact (claim_C1 CircuitBreaker.init [1, 2] 3 (by decide)).2.2.1 13 (by decide)
  · exact ((claim_C1 CircuitBreaker.init [1, 2] 3 (by decide)).2.2.2.1 14 (by decide)).1

/-- Claim C5: State-transition invariant of the breaker, as three equations:
`recordSuccess` never changes `isOpen`; `recordFailure` opens the breaker
exactly when the incremented failure count reaches the threshold (and never
closes it); `allowRequest` never opens the breaker and closes it exactly when
the reset timeout has elapsed since the last failure. -/
theorem claim_C5 (cb : CircuitBreaker) (now : Int) :
    ((recordSuccess cb).isOpen = cb.isOpen) ∧
    ((recordFailure cb now).isOpen =
      (cb.isOpen || decide (cb.failureCount + 1 ≥ failureThreshold))) ∧
    ((allowRequest cb now).2.isOpen =
      (cb.isOpen && !decide (now - cb.lastFailureTime > resetTimeout))) := by
  refine ⟨?_, ?_, ?_⟩
  · unfold recordSuccess
    dsimp only
    split <;> rfl
  · unfold recordFailure
    dsimp only
    split_ifs with h
    · simp [h]
    · simp [h]
  · unfold allowRequest
    split_ifs with h1 h2
    · simp [h1, h2]
    · simp [h1, h2]
    · simp [h1]

/-! ## Transport outcomes and the retry queue (middleware1.cpp, lines 56-145)

`forwardToReceiverTopic` either returns a bool or throws (the publish wait
can throw).  It is modelled as a stateful function on an abstract transport
state `τ` returning one of three outcomes. -/

inductive FwdResult where
  | ok
  | fail
  | thrown
deriving DecidableEq, Repr

/-- A constant-outcome transport, used for concrete runs. -/
def fwConst (r : FwdResult) : Unit → String → FwdResult × Unit := fun u _ => (r, u)

/-- Fixed retry interval of 5 seconds (middleware1.cpp line 130). -/
def retryInterval : Int := 5

/-- Whole mutable state of the middleware1 relay node: the breaker, the
`messageQueue` retry buffer, the `lastRetry` static timestamp and the
transport state. -/
structure MW1State (τ : Type) where
  cb : CircuitBreaker
  messageQueue : List String
  lastRetry : Int
  transport : τ
deriving DecidableEq, Repr

/-- Result of the drain loop of `retryFailedMessages` (lines 137-144):
either the loop terminated (queue empty, or a `false` result broke it), or a
delivery attempt threw and the exception escapes — in both cases `rem` is
the queue content afterwards and `delivered` the payloads forwarded
successfully, in order. -/
inductive DrainRes (τ : Type) where
  | done (rem : List String) (delivered : List String) (tr : τ)
  | ex (e : String) (rem : List String) (delivered : List String) (tr : τ)
deriving DecidableEq, Repr

def DrainRes.rem : DrainRes τ → List String
  | .done r _ _ => r
  | .ex _ r _ _ => r

def DrainRes.delivered : DrainRes τ → List String
  | .done _ d _ => d
  | .ex _ _ d _ => d

def DrainRes.isEx : DrainRes τ → Bool
  | .done _ _ _ => false
  | .ex _ _ _ _ => true

/-- The `while (!messageQueue.empty())` loop of `retryFailedMessages`
(lines 137-144): forward the front; pop it on `true`, break on `false`
(leaving it at the head), and let a thrown exception escape (the front is
not popped). -/
def drainLoop (fw : τ → String → FwdResult × τ) : List String → τ → DrainRes τ
  | [], tr => .done [] [] tr
  | m :: rest, tr =>
    match fw tr m with
    | (.ok, tr1) =>
      match drainLoop fw rest tr1 with
      | .done rem d tr2 => .done rem (m :: d) tr2
      | .ex e rem d tr2 => .ex e rem (m :: d) tr2
    | (.fail, tr1) => .done (m :: rest) [] tr1
    | (.thrown, tr1) => .ex "transport exception" (m :: rest) [] tr1

/-- Model of `MQTTMiddleware::retryFailedMessages` (lines 126-145): a no-op within
`retryInterval` of the last drain, otherwise updates `lastRetry` and runs the
drain loop.  Returns the new state, the delivered payloads, and the escaping
exception if a delivery attempt threw (there is no try/catch here). -/
def retryFailedMessages (fw : τ → String → FwdResult × τ) (st : MW1State τ)
    (now : Int) : MW1State τ × List String × Option String :=
  if now - st.lastRetry < retryInterval then (st, [], none)
  else
    let st1 : MW1State τ := { st with lastRetry := now }
    if st1.messageQueue.isEmpty then (st1, [], none)
    else
      match drainLoop fw st1.messageQueue st1.transport with
      | .done rem d tr => ({ st1 with messageQueue := rem, transport := tr }, d, none)
      | .ex e rem d tr => ({ st1 with messageQueue := rem, transport := tr }, d, some e)

/-- Model of `MQTTMiddleware::processMessage` (lines 92-109): gate through the
breaker; on a returned failure record it and queue the payload; on a thrown
exception the catch block (lines 105-108) only logs and queues the payload —
no `recordFailure`; with the circuit open, queue the payload. -/
def processMessage1 (fw : τ → String → FwdResult × τ) (st : MW1State τ)
    (now : Int) (payload : String) : MW1State τ :=
  let res := allowRequest st.cb now
  if res.1 then
    match fw st.transport payload with
    | (.ok, tr) => { st with cb := recordSuccess res.2, transport := tr }
    | (.fail, tr) =>
        { st with cb := recordFailure res.2 now,
                  messageQueue := st.messageQueue ++ [payload], transport := tr }
    | (.thrown, tr) =>
        { st with cb := res.2,
                  messageQueue := st.messageQueue ++ [payload], transport := tr }
  else
    { st with cb := res.2, messageQueue := st.messageQueue ++ [payload] }

/-- One iteration of the `while (true)` relay loop of
`MQTTMiddleware::start` (lines 75-88): process an incoming message when one
is present, then run the retry drain.  The third component is an exception
escaping the loop body. -/
def loopBody (fw : τ → String → FwdResult × τ) (st : MW1State τ)
    (msg : Option String) (now : Int) : MW1State τ × List String × Option String :=
  let st1 := match msg with
    | some p => processMessage1 fw st now p
    | none => st
  retryFailedMessages fw st1 now

/-- Interleavings of enqueue (a queued payload, as done by `processMessage`)
and drain ticks on the retry buffer. -/
inductive BufOp where
  | enq (p : String)
  | drainAt (now : Int)

/-- The enqueue of `processMessage`: push at the tail of `messageQueue`. -/
def enqueue (st : MW1State τ) (p : String) : MW1State τ :=
  { st with messageQueue := st.messageQueue ++ [p] }

/-- Run an interleaving of enqueues and drain ticks, accumulating all
delivered payloads in delivery order. -/
def runBufOps (fw : τ → String → FwdResult × τ) :
    List BufOp → MW1State τ → MW1State τ × List String
  | [], st => (st, [])
  | .enq p :: rest, st => runBufOps fw rest (enqueue st p)
  | .drainAt now :: rest, st =>
      let r1 := retryFailedMessages fw st now
      let r2 := runBufOps fw rest r1.1
      (r2.1, r1.2.1 ++ r2.2)

/-- The payloads enqueued by an interleaving, in arrival order. -/
def enqueuedOf : List BufOp → List String
  | [] => []
  | .enq p :: rest => p :: enqueuedOf rest
  | .drainAt _ :: rest => enqueuedOf rest

lemma drainLoop_fifo (fw : τ → String → FwdResult × τ) (q : List String) (tr : τ) :
    (drainLoop fw q tr).delivered ++ (drainLoop fw q tr).rem = q := by
  induction q generalizing tr with
  | nil => rfl
  | cons m rest ih =>
      rcases hfw : fw tr m with ⟨r, tr1⟩
      cases r with
      | ok =>
          have hh := ih tr1
          rcases h2 : drainLoop fw rest tr1 with ⟨rem, d, tr2⟩ | ⟨e, rem, d, tr2⟩ <;>
          · rw [h2] at hh
            simp only [drainLoop, hfw, h2, DrainRes.delivered, DrainRes.rem] at hh ⊢
            simpa using hh
      | fail =>
          simp only [drainLoop, hfw, DrainRes.delivered, DrainRes.rem]
          simp
      | thrown =>
          simp only [drainLoop, hfw, DrainRes.delivered, DrainRes.rem]
          simp

lemma drainLoop_stop (fw : τ → String → FwdResult × τ) (q : List String) (tr : τ)
    (m : String) (rest d : List String) (tr2 : τ)
    (h : drainLoop fw q tr = .done (m :: rest) d tr2) :
    ∃ tr0, fw tr0 m = (.fail, tr2) := by
  induction q generalizing tr d with
  | nil => simp [drainLoop] at h
  | cons a q ih =>
      rcases hfw : fw tr a with ⟨r, tr1⟩
      cases r with
      | ok =>
          rcases h2 : drainLoop fw q tr1 with ⟨rem, dd, tr3⟩ | ⟨e, rem, dd, tr3⟩
          · simp only [drainLoop, hfw, h2, DrainRes.done.injEq] at h
            obtain ⟨h3, -, h5⟩ := h
            exact ih tr1 dd (by rw [h2, h3, h5])
          · simp only [drainLoop, hfw, h2] at h
            exact absurd h (by simp)
      | fail =>
          simp only [drainLoop, hfw, DrainRes.done.injEq, List.cons.injEq] at h
          obtain ⟨⟨ha, -⟩, -, htr⟩ := h
          exact ⟨tr, by rw [← ha, hfw, htr]⟩
      | thrown =>
          simp only [drainLoop, hfw] at h
          exact absurd h (by simp)

lemma retry_fifo (fw : τ → String → FwdResult × τ) (st : MW1State τ) (now : Int) :
    (retryFailedMessages fw st now).2.1 ++
      (retryFailedMessages fw st now).1.messageQueue = st.messageQueue := by
  unfold retryFailedMessages
  dsimp only
  split_ifs with h1 h2
  · rfl
  · rfl
  · rcases h3 : drainLoop fw st.messageQueue st.transport with ⟨rem, d, tr⟩ | ⟨e, rem, d, tr⟩ <;>
    · have hh := drainLoop_fifo fw st.messageQueue st.transport
      rw [h3] at hh
      simp only [h3]
      simpa [DrainRes.delivered, DrainRes.rem] using hh

lemma runBufOps_fifo (fw : τ → String → FwdResult × τ) (ops : List BufOp)
    (st : MW1State τ) :
    (runBufOps fw ops st).2 ++ (runBufOps fw ops st).1.messageQueue =
      st.messageQueue ++ enqueuedOf ops := by
  induction ops generalizing st with
  | nil => simp [runBufOps, enqueuedOf]
  | cons op rest ih =>
      cases op with
      | enq p =>
          simp only [runBufOps, enqueuedOf]
          rw [ih]
          simp [enqueue, enqueuedOf]
      | drainAt now =>
          simp only [runBufOps, enqueuedOf]
          rw [List.append_assoc, ih, ← List.append_assoc, retry_fifo]

/-- Claim C2: The retry buffer is FIFO: a drain tick is a no-op before
`retryInterval` has elapsed since the last drain; a tick delivers an initial
prefix of the queue in arrival order, leaving the remainder behind it in
unchanged order; when the drain loop stopped normally at a nonempty queue,
the head is exactly a payload whose forward returned `false`; and over every
interleaving of enqueues and drain ticks, the delivered payloads followed by
the final queue equal the initial queue followed by the enqueued payloads in
arrival order (so payload k+1 is never delivered before payload k). -/
theorem claim_C2 (τ : Type) (fw : τ → String → FwdResult × τ) (st : MW1State τ)
    (now : Int) (ops : List BufOp) :
    (now - st.lastRetry < retryInterval →
      retryFailedMessages fw st now = (st, [], none)) ∧
    ((retryFailedMessages fw st now).2.1 ++
      (retryFailedMessages fw st now).1.messageQueue = st.messageQueue) ∧
    (∀ q tr m rest d tr2, drainLoop fw q tr = DrainRes.done (m :: rest) d tr2 →
      ∃ tr0, fw tr0 m = (.fail, tr2)) ∧
    ((runBufOps fw ops st).2 ++ (runBufOps fw ops st).1.messageQueue =
      st.messageQueue ++ enqueuedOf ops) := by
  refine ⟨?_, retry_fifo fw st now, ?_, runBufOps_fifo fw ops st⟩
  · intro h
    unfold retryFailedMessages
    rw [if_pos h]
  · intro q tr m rest d tr2 h
    exact drainLoop_stop fw q tr m rest d tr2 h

/-- Witness for C2 at a concrete interleaving: enqueue a, b; drain at t=5
with a transport that succeeds once then fails; a is delivered, b stays. -/
theorem claim_C2_witness :
    ((5 : Int) - (6 : Int) < retryInterval) ∧
    (retryFailedMessages (fwConst .fail)
        ⟨CircuitBreaker.init, [], 6, ()⟩ 5 = (⟨CircuitBreaker.init, [], 6, ()⟩, [], none)) ∧
    ((runBufOps (fun n _ => (if n = 0 then FwdResult.ok else .fail, n + 1))
        [BufOp.enq "a", .enq "b", .drainAt 5]
        ⟨CircuitBreaker.init, [], 0, 0⟩).2 ++
      (runBufOps (fun n _ => (if n = 0 then FwdResult.ok else .fail, n + 1))
        [BufOp.enq "a", .enq "b", .drainAt 5]
        ⟨CircuitBreaker.init, [], 0, 0⟩).1.messageQueue =
      [] ++ enqueuedOf [BufOp.enq "a", .enq "b", .drainAt 5]) := by
  refine ⟨by decide, ?_, ?_⟩
  · exact (claim_C2 Unit (fwConst .fail) ⟨CircuitBreaker.init, [], 6, ()⟩ 5 []).1 (by decide)
  · exact (claim_C2 Nat (fun n _ => (if n = 0 then FwdResult.ok else .fail, n + 1))
      ⟨CircuitBreaker.init, [], 0, 0⟩ 5 [BufOp.enq "a", .enq "b", .drainAt 5]).2.2.2

/-- Counterexample to claim C7. The claim says a thrown delivery fault updates
the failure statistics just as a returned failure does.  It does not: from
the initial state, at time 0, a returned failure leaves
`failureCount = 1` while a thrown fault leaves `failureCount = 0` (the catch
block at lines 105-108 only logs and queues; it never calls
`recordFailure`).  Both do enqueue the payload. -/
theorem claim_C7_cex :
    ((processMessage1 (fwConst .fail) ⟨CircuitBreaker.init, [], 0, ()⟩ 0 "m").messageQueue
      = ["m"]) ∧
    ((processMessage1 (fwConst .thrown) ⟨CircuitBreaker.init, [], 0, ()⟩ 0 "m").messageQueue
      = ["m"]) ∧
    ((processMessage1 (fwConst .fail) ⟨CircuitBreaker.init, [], 0, ()⟩ 0 "m").cb.failureCount
      = 1) ∧
    ((processMessage1 (fwConst .thrown) ⟨CircuitBreaker.init, [], 0, ()⟩ 0 "m").cb.failureCount
      = 0) := by
  decide

/-- Claim C7, amended. When the breaker admits the attempt, a thrown delivery
fault and a returned failure both enqueue the original payload at the tail of
the retry queue; but `recordFailure` is invoked only on the returned-failure
path — the thrown path leaves the breaker exactly as the admission query left
it. -/
theorem claim_C7 (τ : Type) (fw : τ → String → FwdResult × τ) (st : MW1State τ)
    (now : Int) (p : String) (h : (allowRequest st.cb now).1 = true) :
    ((fw st.transport p).1 = .thrown →
      (processMessage1 fw st now p).messageQueue = st.messageQueue ++ [p] ∧
      (processMessage1 fw st now p).cb = (allowRequest st.cb now).2) ∧
    ((fw st.transport p).1 = .fail →
      (processMessage1 fw st now p).messageQueue = st.messageQueue ++ [p] ∧
      (processMessage1 fw st now p).cb = recordFailure (allowRequest st.cb now).2 now) := by
  rcases hfw : fw st.transport p with ⟨r, tr⟩
  constructor
  · intro hr
    have hr1 : r = .thrown := hr
    subst hr1
    simp only [processMessage1, h, hfw, if_true]
    exact ⟨trivial, trivial⟩
  · intro hr
    have hr1 : r = .fail := hr
    subst hr1
    simp only [processMessage1, h, hfw, if_true]
    exact ⟨trivial, trivial⟩

/-- Witness for C7 (amended) at the initial state with a throwing and a
failing transport. -/
theorem claim_C7_witness :
    ((allowRequest CircuitBreaker.init 0).1 = true) ∧
    ((processMessage1 (fwConst .thrown) ⟨CircuitBreaker.init, ["a"], 0, ()⟩ 0 "m").messageQueue
      = ["a"] ++ ["m"]) ∧
    ((processMessage1 (fwConst .fail) ⟨CircuitBreaker.init, ["a"], 0, ()⟩ 0 "m").cb
      = recordFailure (allowRequest CircuitBreaker.init 0).2 0) := by
  refine ⟨by decide, ?_, ?_⟩
  · exact ((claim_C7 Unit (fwConst .thrown) ⟨CircuitBreaker.init, ["a"], 0, ()⟩ 0 "m"
      (by decide)).1 (by decide)).1
  · exact ((claim_C7 Unit (fwConst .fail) ⟨CircuitBreaker.init, ["a"], 0, ()⟩ 0 "m"
      (by decide)).2 (by decide)).2

lemma processMessage1_lastRetry (fw : τ → String → FwdResult × τ) (st : MW1State τ)
    (now : Int) (p : String) :
    (processMessage1 fw st now p).lastRetry = st.lastRetry := by
  rcases hfw : fw st.transport p with ⟨r, tr⟩
  unfold processMessage1
  dsimp only
  split_ifs
  · rw [hfw]; cases r <;> rfl
  · rfl

/-- Counterexample to claim C9. An error raised during the periodic retry drain
is not caught: with one queued payload, a drain due at time 5, and a
transport whose delivery attempt throws, the loop body of `start` ends with
an escaping exception — refuting the claim that no per-message error can
propagate out of `start()` (the drain loop at lines 137-144 sits outside any
try/catch). -/
theorem claim_C9_cex :
    (loopBody (fwConst .thrown) ⟨CircuitBreaker.init, ["m"], 0, ()⟩ none 5).2.2 =
      some "transport exception" := by
  decide

/-- Claim C9, amended. Errors raised while processing a newly received
message are caught inside `processMessage` and never escape the loop body
(whenever the retry drain is skipped the loop body ends with no escaping
error, whatever the transport did); any exception that does escape the loop
body arose inside the retry drain loop. -/
theorem claim_C9 (τ : Type) (fw : τ → String → FwdResult × τ) (st : MW1State τ)
    (p : String) (now : Int) :
    (now - st.lastRetry < retryInterval → (loopBody fw st (some p) now).2.2 = none) ∧
    (∀ e, (loopBody fw st (some p) now).2.2 = some e →
      (drainLoop fw (processMessage1 fw st now p).messageQueue
        (processMessage1 fw st now p).transport).isEx = true) := by
  have hbody : loopBody fw st (some p) now =
      retryFailedMessages fw (processMessage1 fw st now p) now := rfl
  constructor
  · intro h
    rw [hbody]
    unfold retryFailedMessages
    rw [if_pos (by rw [processMessage1_lastRetry]; exact h)]
  · intro e he
    rw [hbody] at he
    unfold retryFailedMessages at he
    rcases h3 : drainLoop fw (processMessage1 fw st now p).messageQueue
        (processMessage1 fw st now p).transport with ⟨rem, d, tr⟩ | ⟨ex1, rem, d, tr⟩
    · dsimp only at he
      rw [h3] at he
      split_ifs at he
    · rfl

/-- Witness for C9 (amended): with the drain not yet due, a thrown
processing fault is swallowed and the loop body escapes no error. -/
theorem claim_C9_witness :
    (loopBody (fwConst .thrown) ⟨CircuitBreaker.init, ["m"], 0, ()⟩ (some "p") 3).2.2 =
      none :=
  (claim_C9 Unit (fwConst .thrown) ⟨CircuitBreaker.init, ["m"], 0, ()⟩ "p" 3).1 (by decide)

/-! ## Cluster node (middleware2.cpp, lines 11-106) -/

/-- State of a `MiddlewareNode`: node id, current role (`isLeader`) and the fixed
cluster membership list. -/
structure MiddlewareNode where
  id : String
  isLeader : Bool
  clusterNodes : List String
deriving DecidableEq, Repr

/-- The constructor (middleware2.cpp lines 21-29): the node starts as leader
iff its id equals the static seed id `"node1"` (line 28). -/
def MiddlewareNode.init (nodeId : String) (nodes : List String) : MiddlewareNode :=
  { id := nodeId, isLeader := decide (nodeId = "node1"), clusterNodes := nodes }

/-- The `for` loop of `MiddlewareNode::startElection` (lines 96-104): iterate
the cluster list in order; the seed id `"node1"` is skipped; at every other
entry set `isLeader = (node == id)` and stop as soon as it turned true. -/
def electionLoop : MiddlewareNode → List String → MiddlewareNode
  | n, [] => n
  | n, node :: rest =>
    if node = "node1" then electionLoop n rest
    else
      let n1 : MiddlewareNode := { n with isLeader := decide (node = n.id) }
      if n1.isLeader then n1 else electionLoop n1 rest

/-- Model of `MiddlewareNode::startElection` (lines 94-105). -/
def startElection (n : MiddlewareNode) : MiddlewareNode :=
  electionLoop n n.clusterNodes

lemma electionLoop_id (l : List String) (n : MiddlewareNode) :
    (electionLoop n l).id = n.id := by
  induction l generalizing n with
  | nil => rfl
  | cons node rest ih =>
      unfold electionLoop
      dsimp only
      split_ifs with h1 h2
      · exact ih n
      · rfl
      · exact ih _

lemma electionLoop_isLeader (l : List String) (n : MiddlewareNode)
    (h : n.isLeader = false) :
    ((electionLoop n l).isLeader = true ↔ ∃ x ∈ l, x ≠ "node1" ∧ x = n.id) := by
  induction l generalizing n with
  | nil => simp [electionLoop, h]
  | cons node rest ih =>
      unfold electionLoop
      dsimp only
      split_ifs with h1 h2
      · rw [ih n h]
        subst h1
        constructor
        · rintro ⟨x, hx, hxn, hxe⟩
          exact ⟨x, List.mem_cons_of_mem _ hx, hxn, hxe⟩
        · rintro ⟨x, hx, hxn, hxe⟩
          rcases List.mem_cons.mp hx with hh | hh
          · exact absurd hh hxn
          · exact ⟨x, hh, hxn, hxe⟩
      · have h2a : node = n.id := by simpa using h2
        constructor
        · intro
          exact ⟨node, List.mem_cons_self node rest, h1, h2a⟩
        · intro
          exact h2
      · have h2a : ¬node = n.id := by simpa using h2
        rw [ih _ (by simpa using h2)]
        dsimp only
        constructor
        · rintro ⟨x, hx, hxn, hxe⟩
          exact ⟨x, List.mem_cons_of_mem _ hx, hxn, hxe⟩
        · rintro ⟨x, hx, hxn, hxe⟩
          rcases List.mem_cons.mp hx with hh | hh
          · exact absurd (hh ▸ hxe) h2a
          · exact ⟨x, hh, hxn, hxe⟩

/-- Claim C4: A node starts as Leader iff its id is the seed id `"node1"`
(so with peers `["node1","node2","node3"]`, node `"node1"` starts as
Leader); and the election, run on a Follower, iterates the configured peer
list in its static order skipping the seed id and leaves the node Leader iff
its own id occurs among the non-seed peers (the only peer that can match);
in particular the election on Follower `"node2"` makes it Leader. -/
theorem claim_C4 :
    (∀ nodeId peers,
      ((MiddlewareNode.init nodeId peers).isLeader = true ↔ nodeId = "node1")) ∧
    ((MiddlewareNode.init "node1" ["node1", "node2", "node3"]).isLeader = true) ∧
    (∀ n : MiddlewareNode, n.isLeader = false →
      ((startElection n).isLeader = true ↔
        ∃ x ∈ n.clusterNodes, x ≠ "node1" ∧ x = n.id)) ∧
    ((startElection (MiddlewareNode.init "node2" ["node1", "node2", "node3"])).isLeader
      = true) := by
  refine ⟨?_, by decide, ?_, by decide⟩
  · intro nodeId peers
    simp [MiddlewareNode.init]
  · intro n h
    exact electionLoop_isLeader n.clusterNodes n h

/-- Witness for C4: the election run on Follower `"node2"` of the configured
cluster. -/
theorem claim_C4_witness :
    ((MiddlewareNode.init "node2" ["node1", "node2", "node3"]).isLeader = false) ∧
    ((startElection (MiddlewareNode.init "node2" ["node1", "node2", "node3"])).isLeader
        = true ↔
      ∃ x ∈ ["node1", "node2", "node3"], x ≠ "node1" ∧ x = "node2") :=
  ⟨by decide,
   claim_C4.2.2.1 (MiddlewareNode.init "node2" ["node1", "node2", "node3"]) (by decide)⟩

/-! ## JSON payloads (model of the nlohmann::json subset the pipeline uses)

The pipeline middleware (middleware3_pipeline.cpp) manipulates payloads
through nlohmann::json.  The library is external; the model below covers the
subset exercised by the stages: parsing of null/true/false/integers/strings/
arrays/objects (no floating point, no escape sequences inside strings —
no payload of this repository uses either), key lookup, insertion and
compact dumping.  nlohmann stores object keys sorted; the model keeps
insertion order, which none of the verified properties depend on. -/

inductive Json where
  | null
  | bool (b : Bool)
  | num (n : Int)
  | str (s : String)
  | arr (elems : List Json)
  | obj (fields : List (String × Json))
deriving Repr

/-- Skip JSON whitespace. -/
def skipWs : List Char → List Char
  | [] => []
  | c :: cs =>
    if c = ' ' ∨ c = '\n' ∨ c = '\t' ∨ c = '\r' then skipWs cs else c :: cs

/-- Characters of a string literal after the opening quote, up to the
closing quote (escape sequences not modelled). -/
def parseStringChars : List Char → Option (List Char × List Char)
  | [] => none
  | c :: cs =>
    if c = '\"' then some ([], cs)
    else
      match parseStringChars cs with
      | some (r, rest) => some (c :: r, rest)
      | none => none

/-- Greedy run of decimal digits. -/
def parseDigits : List Char → List Char × List Char
  | [] => ([], [])
  | c :: cs =>
    if c.isDigit then
      let r := parseDigits cs
      (c :: r.1, r.2)
    else ([], c :: cs)

def digitsToNat (ds : List Char) : Nat :=
  ds.foldl (fun a c => a * 10 + (c.toNat - 48)) 0

/-- An integer literal (optional minus, then digits). -/
def parseNum (cs : List Char) : Option (Int × List Char) :=
  match cs with
  | '-' :: cs1 =>
    match parseDigits cs1 with
    | ([], _) => none
    | (ds, rest) => some (-(digitsToNat ds : Int), rest)
  | _ =>
    match parseDigits cs with
    | ([], _) => none
    | (ds, rest) => some ((digitsToNat ds : Int), rest)

mutual

/-- One JSON value; `fuel` bounds the nesting depth. -/
def parseVal (fuel : Nat) (cs : List Char) : Option (Json × List Char) :=
  match fuel with
  | 0 => none
  | f + 1 =>
    match skipWs cs with
    | [] => none
    | c :: rest =>
      if c = '\x7b' then
        match skipWs rest with
        | '\x7d' :: rest2 => some (.obj [], rest2)
        | _ =>
          match parseFieldsLoop f rest with
          | some (fs, rest2) => some (.obj fs, rest2)
          | none => none
      else if c = '[' then
        match skipWs rest with
        | ']' :: rest2 => some (.arr [], rest2)
        | _ =>
          match parseElemsLoop f rest with
          | some (vs, rest2) => some (.arr vs, rest2)
          | none => none
      else if c = '\"' then
        match parseStringChars rest with
        | some (r, rest2) => some (.str (String.mk r), rest2)
        | none => none
      else if c = 't' then
        match rest with
        | 'r' :: 'u' :: 'e' :: rest2 => some (.bool true, rest2)
        | _ => none
      else if c = 'f' then
        match rest with
        | 'a' :: 'l' :: 's' :: 'e' :: rest2 => some (.bool false, rest2)
        | _ => none
      else if c = 'n' then
        match rest with
        | 'u' :: 'l' :: 'l' :: rest2 => some (.null, rest2)
        | _ => none
      else
        match parseNum (c :: rest) with
        | some (n, rest2) => some (.num n, rest2)
        | none => none

/-- The members of an object: `key : value` pairs separated by commas, up to
the closing brace. -/
def parseFieldsLoop (fuel : Nat) (cs : List Char) :
    Option (List (String × Json) × List Char) :=
  match fuel with
  | 0 => none
  | f + 1 =>
    match skipWs cs with
    | '\"' :: rest =>
      match parseStringChars rest with
      | some (k, rest2) =>
        match skipWs rest2 with
        | ':' :: rest3 =>
          match parseVal f rest3 with
          | some (v, rest4) =>
            match skipWs rest4 with
            | ',' :: rest5 =>
              match parseFieldsLoop f rest5 with
              | some (fs, rest6) => some ((String.mk k, v) :: fs, rest6)
              | none => none
            | '\x7d' :: rest5 => some ([(String.mk k, v)], rest5)
            | _ => none
          | none => none
        | _ => none
      | none => none
    | _ => none

/-- The elements of an array, separated by commas, up to the closing
bracket. -/
def parseElemsLoop (fuel : Nat) (cs : List Char) :
    Option (List Json × List Char) :=
  match fuel with
  | 0 => none
  | f + 1 =>
    match parseVal f cs with
    | some (v, rest) =>
      match skipWs rest with
      | ',' :: rest2 =>
        match parseElemsLoop f rest2 with
        | some (vs, rest3) => some (v :: vs, rest3)
        | none => none
      | ']' :: rest2 => some ([v], rest2)
      | _ => none
    | none => none

end

/-- Model of `json::parse`: a whole-input JSON value; `none` models a thrown
parse_error. -/
def parse (s : String) : Option Json :=
  match parseVal (s.toList.length + 1) s.toList with
  | some (j, rest) => if skipWs rest = [] then some j else none
  | none => none

/-- Membership test `j.contains(k)`: true iff `j` is an object with key `k`. -/
def jContains (j : Json) (k : String) : Bool :=
  match j with
  | .obj fs => (fs.lookup k).isSome
  | _ => false

/-- Read access `j[k]` on objects. -/
def jLookup (j : Json) (k : String) : Option Json :=
  match j with
  | .obj fs => fs.lookup k
  | _ => none

def setField : List (String × Json) → String → Json → List (String × Json)
  | [], k, v => [(k, v)]
  | (k1, v1) :: fs, k, v =>
    if k1 = k then (k1, v) :: fs else (k1, v1) :: setField fs k v

/-- Assignment `j[k] = v` on an object: replace the key if present, insert otherwise
(non-objects are irrelevant to the stages and returned unchanged). -/
def jSet (j : Json) (k : String) (v : Json) : Json :=
  match j with
  | .obj fs => .obj (setField fs k v)
  | other => other

mutual

/-- Serialization `j.dump()`, compact output. -/
def dump : Json → String
  | .null => "null"
  | .bool true => "true"
  | .bool false => "false"
  | .num n => toString n
  | .str s => "\"" ++ s ++ "\""
  | .arr xs => "[" ++ dumpElems xs ++ "]"
  | .obj fs => "\x7b" ++ dumpFields fs ++ "\x7d"

def dumpElems : List Json → String
  | [] => ""
  | [x] => dump x
  | x :: xs => dump x ++ "," ++ dumpElems xs

def dumpFields : List (String × Json) → String
  | [] => ""
  | [(k, v)] => "\"" ++ k ++ "\":" ++ dump v
  | (k, v) :: fs => "\"" ++ k ++ "\":" ++ dump v ++ "," ++ dumpFields fs

end

/-! ## Processing pipeline (middleware3_pipeline.cpp) -/

/-- A pipeline stage's `process`: it returns the transformed payload or
fails with a thrown error message (`ProcessingError`). -/
def Stage : Type := String → Except String String

/-- Model of `ValidationStage::process` (part_001 lines 20-26): parse the payload
(a parse failure propagates as an error), require the keys `device_id` and
`temperature`, and return the input unchanged. -/
def validationProcess : Stage := fun input =>
  match parse input with
  | none => .error "parse error"
  | some j =>
    if !(jContains j "device_id") || !(jContains j "temperature") then
      .error "Invalid message format"
    else
      .ok input

/-- Model of `TransformationStage::process` (part_001 lines 33-41): fail if the
fault flag is set; otherwise re-parse, add `processed = true` and
`server_timestamp = t` (the value of `time(nullptr)` at the call) and dump. -/
def transformationProcess (simulatedFailure : Bool) (t : Int) : Stage := fun input =>
  if simulatedFailure then .error "Simulated transformation failure"
  else
    match parse input with
    | none => .error "parse error"
    | some j =>
      .ok (dump (jSet (jSet j "processed" (.bool true)) "server_timestamp" (.num t)))

/-- The pipeline built by the constructor (part_001 lines 72-73):
ValidationStage then TransformationStage, in that fixed order.
`simulatedFailure` is false at construction (line 31). -/
def pipelineStages (simulatedFailure : Bool) (t : Int) : List Stage :=
  [validationProcess, transformationProcess simulatedFailure t]

/-- The `for (auto& stage : pipeline) processed = stage->process(processed)`
traversal inside `processMessage` (part_001 lines 98-101): output of stage i
is input of stage i+1; a thrown error aborts the traversal. -/
def runPipeline : List Stage → String → Except String String
  | [], s => .ok s
  | stage :: rest, s =>
    match stage s with
    | .ok out => runPipeline rest out
    | .error e => .error e

/-- Model of `MQTTMiddleware::processMessage` (part_001 lines 96-107): run the
pipeline inside try/catch; on success publish the result (returned as
`some`), on any stage failure log and drop the message (`none`) — there is
no retry queue in this middleware. -/
def processMessage3 (stages : List Stage) (payload : String) : Option String :=
  match runPipeline stages payload with
  | .ok processed => some processed
  | .error _ => none

def goodPayload : String := "\x7b\"device_id\":\"d1\",\"temperature\":21\x7d"

def badPayload : String := "\x7b\"temperature\":21\x7d"

/-- Claim C3: On `goodPayload` the pipeline succeeds and its output is the
dump of a JSON object carrying `processed = true`, the numeric
`server_timestamp = t`, and the preserved `device_id` and `temperature`;
on `badPayload` (missing `device_id`) it fails with the validation error and
produces no output — the result equals what the validation stage alone
produces, so the transformation stage is never applied. -/
theorem claim_C3 (t : Int) :
    (∃ j : Json, runPipeline (pipelineStages false t) goodPayload = .ok (dump j) ∧
      jLookup j "processed" = some (.bool true) ∧
      jLookup j "server_timestamp" = some (.num t) ∧
      jLookup j "device_id" = some (.str "d1") ∧
      jLookup j "temperature" = some (.num 21)) ∧
    (runPipeline (pipelineStages false t) badPayload = .error "Invalid message format") ∧
    (runPipeline (pipelineStages false t) badPayload = validationProcess badPayload) := by
  refine ⟨⟨Json.obj [("device_id", .str "d1"), ("temperature", .num 21),
    ("processed", .bool true), ("server_timestamp", .num t)], ?_, rfl, rfl, rfl, rfl⟩,
    rfl, rfl⟩
  rfl

/-- Claim C6: The pipeline traversal: the empty traversal returns its input;
a successful stage feeds its output to the remaining stages in order; a
failing stage aborts the whole traversal with its error, and the result does
not depend on the later stages at all (they are never run); and a failed
traversal publishes nothing — `processMessage` drops the message, returning
the failure to its caller only for logging. -/
theorem claim_C6 (stages rest : List Stage) (stage : Stage)
    (input out e : String) :
    (runPipeline [] input = .ok input) ∧
    (stage input = .ok out →
      runPipeline (stage :: stages) input = runPipeline stages out) ∧
    (stage input = .error e →
      runPipeline (stage :: stages) input = .error e ∧
      runPipeline (stage :: stages) input = runPipeline (stage :: rest) input) ∧
    (runPipeline stages input = .error e → processMessage3 stages input = none) := by
  have hcons : ∀ (st1 : Stage) (l : List Stage) (s : String),
      runPipeline (st1 :: l) s =
        match st1 s with
        | .ok out => runPipeline l out
        | .error e1 => .error e1 := fun _ _ _ => rfl
  refine ⟨rfl, ?_, ?_, ?_⟩
  · intro h
    rw [hcons, h]
  · intro h
    refine ⟨?_, ?_⟩
    · rw [hcons, h]
    · rw [hcons, hcons, h]
  · intro h
    unfold processMessage3
    rw [h]

/-- Witness for C6 on the real stages: the validation stage passes
`goodPayload` through unchanged, chains into the rest, fails on
`badPayload`, and the failed pipeline publishes nothing. -/
theorem claim_C6_witness :
    (runPipeline (pipelineStages false 7) goodPayload =
      runPipeline [transformationProcess false 7] goodPayload) ∧
    (runPipeline (pipelineStages false 7) badPayload = .error "Invalid message format") ∧
    (processMessage3 (pipelineStages false 7) badPayload = none) := by
  refine ⟨?_, ?_, ?_⟩
  · exact (claim_C6 [transformationProcess false 7] [] validationProcess
      goodPayload goodPayload "e").2.1 rfl
  · exact ((claim_C6 [transformationProcess false 7] [] validationProcess
      badPayload "o" "Invalid message format").2.2.1 rfl).1
  · exact (claim_C6 (pipelineStages false 7) [] validationProcess
      badPayload "o" "Invalid message format").2.2.2 rfl

/-! ## Supervisor health sweep (middleware3_pipeline.cpp) -/

inductive StageKind where
  | validation
  | transformation
deriving DecidableEq, Repr

/-- A pipeline stage instance as the health sweep sees it: its kind, the
invocation counter driving `TransformationStage::isHealthy` (a static
counter in the source; there is a single TransformationStage instance), and
the `simulatedFailure` flag. -/
structure StageInst where
  kind : StageKind
  healthCounter : Nat
  simulatedFailure : Bool
deriving DecidableEq, Repr

/-- Model of `isHealthy`: ValidationStage inherits the base `return true`
(part_001 line 15); TransformationStage increments the counter and reports
unhealthy on every 5th call (part_001 lines 43-49). -/
def isHealthy (s : StageInst) : Bool × StageInst :=
  match s.kind with
  | .validation => (true, s)
  | .transformation =>
    let c := s.healthCounter + 1
    if c % 5 = 0 then (false, { s with healthCounter := c })
    else (true, { s with healthCounter := c })

/-- Model of `Supervisor::restartStage` (part_001 lines 52-58): returns the same
stage instance unchanged (the body only logs and moves the pointer back). -/
def restartStage (s : StageInst) : StageInst := s

/-- Model of `MQTTMiddleware::checkPipelineHealth` (part_001 lines 109-116): query
`isHealthy` on every stage and put `restartStage`'s return value into the
slot of each stage that reported unhealthy. -/
def checkPipelineHealth : List StageInst → List StageInst
  | [] => []
  | s :: rest =>
    let r := isHealthy s
    (if r.1 then r.2 else restartStage r.2) :: checkPipelineHealth rest

/-- A freshly constructed TransformationStage, as a reset replacement would
be. -/
def freshTransformation : StageInst :=
  { kind := .transformation, healthCounter := 0, simulatedFailure := false }

/-- Counterexample to claim C8. A TransformationStage at counter 4 reports
unhealthy during the sweep; the sweep leaves in its slot the very same
instance (counter merely advanced to 5 by the query, not reset):
`restartStage` is the identity, so the slot does not hold a fresh/reset
instance as the claim requires. -/
theorem claim_C8_cex :
    ((isHealthy ⟨.transformation, 4, false⟩).1 = false) ∧
    (checkPipelineHealth [⟨.transformation, 4, false⟩] = [⟨.transformation, 5, false⟩]) ∧
    (restartStage ⟨.transformation, 5, false⟩ = ⟨.transformation, 5, false⟩) ∧
    ((⟨.transformation, 5, false⟩ : StageInst) ≠ freshTransformation) := by
  decide

/-- Claim C8, amended. `restartStage` is the identity, so a health sweep
never replaces any stage: it returns the pipeline with each stage exactly as
its own `isHealthy` query left it (only the health counter advanced),
whether or not the stage reported unhealthy; no reset occurs. -/
theorem claim_C8 (ps : List StageInst) (s : StageInst) :
    (restartStage s = s) ∧
    (checkPipelineHealth ps = ps.map fun x => (isHealthy x).2) := by
  refine ⟨rfl, ?_⟩
  induction ps with
  | nil => rfl
  | cons s1 rest ih =>
      simp only [checkPipelineHealth, List.map, restartStage, ite_self]
      rw [ih]

/-- Claim C10: `ValidationStage::process` is the identity on accepted inputs:
whenever the payload parses and contains both required keys, the stage
returns the input string itself, byte for byte. -/
theorem claim_C10 (p : String) (j : Json) (hp : parse p = some j)
    (h1 : jContains j "device_id" = true)
    (h2 : jContains j "temperature" = true) :
    validationProcess p = .ok p := by
  unfold validationProcess
  rw [hp]
  dsimp only
  rw [h1, h2]
  rfl

/-- Witness for C10 at the concrete accepted payload. -/
theorem claim_C10_witness :
    validationProcess goodPayload = .ok goodPayload :=
  claim_C10 goodPayload
    (Json.obj [("device_id", .str "d1"), ("temperature", .num 21)]) rfl rfl rfl

end MqttFT
